import Mathlib

/-!
Verification development for the ViperBoxInterface repository.

We shallowly embed the Python source files (`VB_classes.py`, `XML_handler.py`,
`viperboxinterface/control.py`, `viperboxinterface/data_thread.py`) into Lean:
strings become `List Char`, Python `dict`s become insertion-ordered association
lists (`List (Int × _)`) with Python-dict update semantics, fallible Python
functions (those that can `raise`) return `Except PyErr _`, and interactions
with external collaborators (the NeuraviperPy device driver, XML parsing,
the wall clock) are oracle parameters of the embedded functions.
-/

set_option maxRecDepth 10000

namespace ViperBox

/-- Python exception kinds raised by the embedded code. -/
inductive PyErr
  | valueError (msg : String)
  | keyError (key : String)
  | indexError
  deriving DecidableEq, Repr

/-! ### Python dictionary / list primitives

Python `dict`s preserve insertion order; assignment `d[k] = v` updates the
entry in place if `k` is present and appends otherwise.  We model them as
association lists with exactly that update semantics. -/

variable {κ : Type} [DecidableEq κ]

/-- Python `d[k]` as an `Option` (`d.get(k)`). -/
def pyLookup (m : List (κ × α)) (k : κ) : Option α :=
  match m with
  | [] => none
  | (k', v) :: rest => if k' = k then some v else pyLookup rest k

/-- Python `d[k] = v`: update in place if present, append otherwise. -/
def pyInsert (k : κ) (v : α) (m : List (κ × α)) : List (κ × α) :=
  match m with
  | [] => [(k, v)]
  | (k', v') :: rest =>
    if k' = k then (k, v) :: rest else (k', v') :: pyInsert k v rest

@[simp] theorem pyLookup_nil (k : κ) : pyLookup ([] : List (κ × α)) k = none := rfl

@[simp] theorem pyLookup_cons (k k' : κ) (v : α) (rest : List (κ × α)) :
    pyLookup ((k', v) :: rest) k = if k' = k then some v else pyLookup rest k := rfl

theorem pyLookup_pyInsert (k k' : κ) (v : α) (m : List (κ × α)) :
    pyLookup (pyInsert k v m) k' = if k = k' then some v else pyLookup m k' := by
  induction m with
  | nil => by_cases h : k = k' <;> simp [pyInsert, h]
  | cons hd tl ih =>
    obtain ⟨k₀, v₀⟩ := hd
    by_cases h0 : k₀ = k
    · subst h0
      by_cases h : k₀ = k' <;> simp [pyInsert, h]
    · by_cases h : k₀ = k'
      · subst h
        have hne : ¬k = k₀ := fun hc => h0 hc.symm
        simp [pyInsert, h0, hne]
      · simp [pyInsert, h0, h, ih]

/-- `pyInsert` on a present key keeps the key sequence unchanged. -/
theorem pyInsert_keys_of_mem (k : κ) (v : α) (m : List (κ × α))
    (h : pyLookup m k ≠ none) :
    (pyInsert k v m).map Prod.fst = m.map Prod.fst := by
  induction m with
  | nil => simp at h
  | cons hd tl ih =>
    obtain ⟨k₀, v₀⟩ := hd
    by_cases h0 : k₀ = k
    · subst h0; simp [pyInsert]
    · simp only [pyLookup_cons, h0, if_false] at h
      simp [pyInsert, h0, ih h]

/-! ### `int()` and string helpers -/

/-- Digits of a decimal literal, `none` if empty or a non-digit occurs. -/
def digitsToNat (s : List Char) : Option Nat :=
  match s with
  | [] => none
  | _ =>
    if s.all Char.isDigit then
      some (s.foldl (fun acc c => 10 * acc + (c.toNat - 48)) 0)
    else none

/-- Python `int(s)` for the literals occurring in this code base: an optional
leading minus sign followed by decimal digits.  `none` models `ValueError`. -/
def int_of (s : List Char) : Option Int :=
  match s with
  | '-' :: rest => (digitsToNat rest).map (fun n => -(n : Int))
  | _ => (digitsToNat s).map (fun n => (n : Int))

/-- Substring test for a doubled character (`",," in s` / `"--" in s`). -/
def hasDouble (c : Char) : List Char → Bool
  | a :: b :: rest => (a = c && b = c) || hasDouble c (b :: rest)
  | _ => false

/-- Python `s.split(sep)` for a one-character separator
(`"".split(",") = [""]`, separators at the ends produce empty items). -/
def pySplit (c : Char) : List Char → List (List Char)
  | [] => [[]]
  | x :: xs =>
    if x = c then [] :: pySplit c xs
    else
      match pySplit c xs with
      | [] => [[x]]
      | h :: t => (x :: h) :: t

/-- `pySplit` never returns the empty list of items. -/
theorem pySplit_ne_nil (c : Char) (l : List Char) : pySplit c l ≠ [] := by
  induction l with
  | nil => simp [pySplit]
  | cons x xs ih =>
    by_cases h : x = c
    · simp [pySplit, h]
    · simp only [pySplit, h, if_false]
      cases pySplit c xs <;> simp

/-- Splitting a list that does not contain the separator yields the list itself. -/
theorem pySplit_of_not_mem (c : Char) (l : List Char) (h : c ∉ l) :
    pySplit c l = [l] := by
  induction l with
  | nil => rfl
  | cons x xs ih =>
    simp only [List.mem_cons, not_or] at h
    have hx : ¬(x = c) := fun hc => h.1 hc.symm
    simp [pySplit, hx, ih h.2]

/-- Splitting around an explicit separator occurrence. -/
theorem pySplit_append (c : Char) (l₁ l₂ : List Char) (h : c ∉ l₁) :
    pySplit c (l₁ ++ c :: l₂) = l₁ :: pySplit c l₂ := by
  induction l₁ with
  | nil => simp [pySplit]
  | cons x xs ih =>
    simp only [List.mem_cons, not_or] at h
    have hx : ¬(x = c) := fun hc => h.1 hc.symm
    have ih' := ih h.2
    rw [List.cons_append]
    simp only [pySplit, hx, if_false]
    rw [ih']

/-- Inclusive integer range `[lo..hi]` (Python `range(lo, hi + 1)`). -/
def intRange (lo hi : Int) : List Int :=
  (List.range (hi + 1 - lo).toNat).map (fun i => lo + i)

/-- `np.unique`: the sorted list of distinct values.  Implemented as repeated
sorted insertion (numpy itself is an external library; only its contract —
ascending, duplicate-free, same members — is relevant). -/
def insertSorted (x : Int) : List Int → List Int
  | [] => [x]
  | y :: ys =>
    if x < y then x :: y :: ys
    else if x = y then y :: ys
    else y :: insertSorted x ys

def npUnique (l : List Int) : List Int :=
  l.foldr insertSorted []

theorem mem_insertSorted (x a : Int) (l : List Int) :
    a ∈ insertSorted x l ↔ a = x ∨ a ∈ l := by
  induction l with
  | nil => simp [insertSorted]
  | cons y ys ih =>
    by_cases h1 : x < y
    · simp [insertSorted, h1]
    · by_cases h2 : x = y
      · subst h2
        simp only [insertSorted, h1, if_false, if_pos rfl]
        constructor
        · intro h; exact Or.inr h
        · rintro (rfl | h) <;> simp_all
      · simp only [insertSorted, h1, if_false, h2, if_false, List.mem_cons, ih]
        tauto

theorem sorted_insertSorted (x : Int) (l : List Int)
    (h : List.Sorted (· < ·) l) : List.Sorted (· < ·) (insertSorted x l) := by
  induction l with
  | nil => simp [insertSorted]
  | cons y ys ih =>
    rw [List.sorted_cons] at h
    by_cases h1 : x < y
    · rw [insertSorted, if_pos h1, List.sorted_cons]
      refine ⟨?_, List.sorted_cons.mpr h⟩
      intro b hb
      rcases List.mem_cons.mp hb with rfl | hb
      · exact h1
      · exact lt_trans h1 (h.1 b hb)
    · by_cases h2 : x = y
      · rw [insertSorted, if_neg h1, if_pos h2, List.sorted_cons]
        exact h
      · rw [insertSorted, if_neg h1, if_neg h2, List.sorted_cons]
        have hyx : y < x := by
          rcases lt_trichotomy x y with h' | h' | h' <;> simp_all
        refine ⟨?_, ih h.2⟩
        intro b hb
        rcases (mem_insertSorted x b ys).mp hb with rfl | hb
        · exact hyx
        · exact h.1 b hb

theorem sorted_npUnique (l : List Int) : List.Sorted (· < ·) (npUnique l) := by
  induction l with
  | nil => simp [npUnique]
  | cons x xs ih => exact sorted_insertSorted x _ ih

theorem mem_npUnique (a : Int) (l : List Int) : a ∈ npUnique l ↔ a ∈ l := by
  induction l with
  | nil => simp [npUnique]
  | cons x xs ih =>
    simp only [npUnique, List.foldr_cons, mem_insertSorted, List.mem_cons]
    rw [npUnique] at ih
    rw [ih]

/-! ### `parse_numbers` (VB_classes.py) -/

/-- One comma-separated item of `parse_numbers`/`parse_references`
(the body of the `for item in split_numstr` loop): single literal or
`a-b` range, with a reversed range (`a > b`) swapped rather than empty.
Indexing `item[0]` of an empty item raises `IndexError` in Python. -/
def parse_item (item : List Char) : Except PyErr (List Int) :=
  match item with
  | [] => .error .indexError
  | c :: rest =>
    if c = '-' then .error (.valueError "Invalid input, can't start with a dash")
    else if (c :: rest).getLast (by simp) = '-' then
      .error (.valueError "Invalid input, can't end with a dash")
    else if (c :: rest).contains '-' then
      match pySplit '-' (c :: rest) with
      | [a, b] =>
        match int_of a, int_of b with
        | some x, some y =>
          if x > y then .ok (intRange y x) else .ok (intRange x y)
        | _, _ => .error (.valueError "invalid literal for int()")
      | _ => .error (.valueError "Invalid range")
    else
      match int_of (c :: rest) with
      | some x => .ok [x]
      | none => .error (.valueError "invalid literal for int()")

/-- `parse_numbers(numstr, all_values)` from `VB_classes.py`: parses a
1-indexed expression such as `"1,2,3,4-6,8"` or `"-"`, converts to 0-indexed,
de-duplicates/sorts via `np.unique` and checks membership in `all_values`. -/
def parse_numbers (numstr : List Char) (all_values : List Int) :
    Except PyErr (List Int) :=
  if hasDouble ',' numstr then
    .error (.valueError "Invalid input, can't have double commas")
  else if hasDouble '-' numstr then
    .error (.valueError "Invalid input, can't have double dashes")
  else
    match
      (if numstr = ['-'] then
        .ok all_values
      else if numstr.length = 1 then
        match int_of numstr with
        | some x => .ok [x - 1]
        | none => .error (.valueError "invalid literal for int()")
      else
        match (pySplit ',' numstr).mapM parse_item with
        | .ok parts => .ok ((npUnique parts.flatten).map (· - 1))
        | .error e => .error e : Except PyErr (List Int))
    with
    | .error e => .error e
    | .ok result =>
      if result.all (fun x => all_values.contains x) then
        .ok result
      else
        .error (.valueError "Invalid values; following instances are not connected")

/-! ### `parse_references` and `ChanSettings.get_refs` (VB_classes.py) -/

/-- `parse_references(refstr)` from `VB_classes.py`: same grammar over the
fixed universe `[0..8]`, `b` aliased to `0`, no 1-to-0-index shift, and the
result reinterpreted as a 9-character indicator list
(`["1" if i in result else "0" for i in all_values]`, position `i` =
ReferenceId `i`). -/
def parse_references (refstr : List Char) : Except PyErr (List Char) :=
  let all_values : List Int := intRange 0 8
  if hasDouble ',' refstr then
    .error (.valueError "Invalid input, can't have double commas")
  else if hasDouble '-' refstr then
    .error (.valueError "Invalid input, can't have double dashes")
  else
    let refstr := refstr.map (fun c => if c = 'b' then '0' else c)
    match
      (if refstr = ['-'] then
        .ok all_values
      else if refstr.length = 1 then
        match int_of refstr with
        | some x => .ok [x]
        | none => .error (.valueError "invalid literal for int()")
      else
        match (pySplit ',' refstr).mapM parse_item with
        | .ok parts => .ok (npUnique parts.flatten)
        | .error e => .error e : Except PyErr (List Int))
    with
    | .error e => .error e
    | .ok result =>
      if result.all (fun x => all_values.contains x) then
        .ok (all_values.map (fun i => if result.contains i then '1' else '0'))
      else
        .error (.valueError "Invalid values; following instances are not connected")

/-- Python `int(s, 2)` on a string of `'0'`/`'1'` characters: the leftmost
character is the most significant bit. -/
def int_base2 (s : List Char) : Nat :=
  s.foldl (fun acc c => 2 * acc + (if c = '1' then 1 else 0)) 0

/-- `ChanSettings.get_refs` (`int(int(self.references, 2))`): the stored
reference indicator string reinterpreted as a base-2 integer. -/
def get_refs (references : List Char) : Nat :=
  int_base2 references

/-! ### `ViperBox._SU_list_to_bitmask` (control.py) -/

/-- `_SU_list_to_bitmask`: build the 8-character indicator string
(`"1" if i in SU_list else "0"` for `i in range(8)`), reverse it, and parse
it as a base-2 integer. -/
def SU_list_to_bitmask (SU_list : List Int) : Nat :=
  int_base2
    (((List.range 8).map
      (fun i : Nat => if SU_list.contains (Int.ofNat i) then '1' else '0')).reverse)

/-! ### Stimulation-parameter verification (XML_handler.py) -/

/-- `verify_params`: `(name, step, min, max)` for the 11 waveform fields. -/
def verify_params : List (String × Int × Int × Int) :=
  [("polarity", 1, 0, 1),
   ("pulses", 1, 0, 255),
   ("amplitude1", 1, 0, 255),
   ("amplitude2", 1, 0, 255),
   ("duration", 100, 100, 25500),
   ("prephase", 100, 0, 25500),
   ("width1", 10, 0, 2550),
   ("interphase", 10, 10, 2550),
   ("width2", 10, 0, 2550),
   ("discharge", 100, 0, 25500),
   ("aftertrain", 100, 0, 25500)]

/-- `screen_name`: front-end display names keyed by field name.  It has no
entry for `"polarity"`. -/
def screen_name : List (String × String) :=
  [("pulses", "Number of pulses"),
   ("prephase", "Prephase"),
   ("amplitude1", "Pulse amplitude anode"),
   ("width1", "1st pulse phase width"),
   ("interphase", "Pulse interphase interval"),
   ("amplitude2", "Pulse amplitude cathode"),
   ("width2", "2nd pulse phase width"),
   ("discharge", "Interpulse interval (discharge)"),
   ("duration", "Pulse duration"),
   ("aftertrain", "Train interval (discharge)")]

/-- Python `s[k]` on a string-keyed dict; `KeyError` when absent. -/
def strLookup (m : List (String × String)) (k : String) : Option String :=
  match m with
  | [] => none
  | (k', v) :: rest => if k' = k then some v else strLookup rest k

/-- Error message of `verify_step_min_max` (an f-string; `screen_name[name]`
is looked up while building it, so a missing key raises `KeyError`). -/
def vsmmMessage (sn : String) (step min_val max_val value : Int) : String :=
  sn ++ s!" must be between {min_val} and {max_val} and a multiple of {step}. It is now {value}."

/-- `verify_step_min_max(name, step, min_val, max_val, value)`: raises
`ValueError` with a message starting with `screen_name[name]` when the value
is out of range or off-step; the `screen_name[name]` lookup itself raises
`KeyError` when `name` has no display name. -/
def verify_step_min_max (name : String) (step min_val max_val value : Int) :
    Except PyErr Bool :=
  if ¬(min_val ≤ value ∧ value ≤ max_val) then
    match strLookup screen_name name with
    | none => .error (.keyError name)
    | some sn => .error (.valueError (vsmmMessage sn step min_val max_val value))
  else if (value - min_val) % step ≠ 0 then
    match strLookup screen_name name with
    | none => .error (.keyError name)
    | some sn => .error (.valueError (vsmmMessage sn step min_val max_val value))
  else
    .ok true

/-! ### Helper lemmas -/

instance {ε α : Type} [DecidableEq ε] [DecidableEq α] : DecidableEq (Except ε α) :=
  fun x y =>
    match x, y with
    | .ok a, .ok b =>
      if h : a = b then .isTrue (by rw [h]) else .isFalse (by simp [h])
    | .error a, .error b =>
      if h : a = b then .isTrue (by rw [h]) else .isFalse (by simp [h])
    | .ok _, .error _ => .isFalse (by simp)
    | .error _, .ok _ => .isFalse (by simp)

theorem contains_true_iff (l : List Int) (x : Int) : l.contains x = true ↔ x ∈ l := by
  induction l with
  | nil => simp
  | cons a as ih => simp [List.contains_cons, ih]

/-- Value of `int_base2` on a reversed 8-bit indicator string. -/
theorem int_base2_rev_indicator : ∀ b : Fin 8 → Bool,
    int_base2 (((List.finRange 8).map (fun i => if b i then '1' else '0')).reverse)
      = ∑ i : Fin 8, (if b i then 2 ^ (i : ℕ) else 0) := by decide

theorem ite_char_eq_one (P : Prop) [Decidable P] :
    ((if P then '1' else '0') = '1') = P := by
  by_cases h : P <;> simp [h]

theorem ite_eq_mul_boole (P : Prop) [Decidable P] (c : ℕ) :
    (if P then c else 0) = c * (if P then 1 else 0) := by
  by_cases h : P <;> simp [h]

/-! ### Claim theorems: stimulation-unit bitmask (C2) -/

/-- C2 counterexample: over 8 units, `stimUnitsToBitmask([0,2])` evaluates to
`5`, not `0b10100000 = 160` as the claim states. -/
theorem SU_bitmask_counterexample :
    SU_list_to_bitmask [0, 2] = 5 ∧ SU_list_to_bitmask [0, 2] ≠ 160 :=
  ⟨by decide, by decide⟩

/-- C2 (amended): `_SU_list_to_bitmask` maps unit index `i` to bit position
`i` of the resulting integer (LSB = unit 0), so `stimUnitsToBitmask([0,2])`
equals `0b00000101 = 5`. -/
theorem SU_bitmask_bit_order (l : List Int) :
    SU_list_to_bitmask l
        = ∑ i in Finset.range 8, (if l.contains (Int.ofNat i) then 2 ^ i else 0)
      ∧ SU_list_to_bitmask [0, 2] = 5 := by
  constructor
  · have hr : List.range 8 = (List.finRange 8).map Fin.val := by decide
    have hk := int_base2_rev_indicator (fun i : Fin 8 => l.contains (Int.ofNat (i : ℕ)))
    rw [SU_list_to_bitmask, hr, List.map_map]
    exact hk.trans
      (Fin.sum_univ_eq_sum_range
        (fun i : ℕ => if l.contains (Int.ofNat i) then 2 ^ i else 0) 8)
  · decide

/-! ### Claim theorems: waveform-field validation (C7) -/

/-- C7: validating an out-of-range `polarity` value does not produce the
documented field-naming `ValueError`; the `screen_name` lookup raises
`KeyError("polarity")` instead (the table has no `polarity` entry), while for
the other fields (e.g. `pulses`) the message does start with the field's
display name. -/
theorem verify_polarity_keyerror :
    verify_step_min_max "polarity" 1 0 1 2 = .error (.keyError "polarity")
      ∧ verify_step_min_max "pulses" 1 0 255 256
          = .error (.valueError
              "Number of pulses must be between 0 and 255 and a multiple of 1. It is now 256.")
      ∧ ("polarity", 1, 0, 1) ∈ verify_params ∧ strLookup screen_name "polarity" = none :=
  ⟨rfl, rfl, by decide, rfl⟩

/-! ### Claim theorems: reference mask bit order (C6) -/

/-- Every successful `parse_references` result is the 9-position indicator
list of some selected set (position `i` = ReferenceId `i`). -/
theorem parse_references_shape (r refs : List Char)
    (h : parse_references r = .ok refs) :
    ∃ sel : List Int,
      refs = (intRange 0 8).map (fun i => if sel.contains i then '1' else '0') := by
  simp only [parse_references] at h
  split at h
  · simp at h
  · split at h
    · simp at h
    · split at h
      · simp at h
      · split at h
        · exact ⟨_, (Except.ok.inj h).symm⟩
        · simp at h

/-- Base-2 value of an arbitrary 9-character string, bit-by-bit. -/
theorem int_base2_nine (c0 c1 c2 c3 c4 c5 c6 c7 c8 : Char) :
    int_base2 [c0, c1, c2, c3, c4, c5, c6, c7, c8]
      = ∑ i in Finset.range 9,
          (if [c0, c1, c2, c3, c4, c5, c6, c7, c8].getD i '0' = '1'
           then 2 ^ (8 - i) else 0) := by
  simp only [Finset.sum_range_succ, Finset.sum_range_zero]
  rw [show ([c0, c1, c2, c3, c4, c5, c6, c7, c8].getD 0 '0') = c0 from rfl,
      show ([c0, c1, c2, c3, c4, c5, c6, c7, c8].getD 1 '0') = c1 from rfl,
      show ([c0, c1, c2, c3, c4, c5, c6, c7, c8].getD 2 '0') = c2 from rfl,
      show ([c0, c1, c2, c3, c4, c5, c6, c7, c8].getD 3 '0') = c3 from rfl,
      show ([c0, c1, c2, c3, c4, c5, c6, c7, c8].getD 4 '0') = c4 from rfl,
      show ([c0, c1, c2, c3, c4, c5, c6, c7, c8].getD 5 '0') = c5 from rfl,
      show ([c0, c1, c2, c3, c4, c5, c6, c7, c8].getD 6 '0') = c6 from rfl,
      show ([c0, c1, c2, c3, c4, c5, c6, c7, c8].getD 7 '0') = c7 from rfl,
      show ([c0, c1, c2, c3, c4, c5, c6, c7, c8].getD 8 '0') = c8 from rfl]
  simp only [int_base2, List.foldl_cons, List.foldl_nil]
  simp only [show (8 : ℕ) - 0 = 8 from rfl, show (8 : ℕ) - 1 = 7 from rfl,
    show (8 : ℕ) - 2 = 6 from rfl, show (8 : ℕ) - 3 = 5 from rfl,
    show (8 : ℕ) - 4 = 4 from rfl, show (8 : ℕ) - 5 = 3 from rfl,
    show (8 : ℕ) - 6 = 2 from rfl, show (8 : ℕ) - 7 = 1 from rfl,
    show (8 : ℕ) - 8 = 0 from rfl]
  rw [ite_eq_mul_boole (c0 = '1') (2 ^ 8), ite_eq_mul_boole (c1 = '1') (2 ^ 7),
      ite_eq_mul_boole (c2 = '1') (2 ^ 6), ite_eq_mul_boole (c3 = '1') (2 ^ 5),
      ite_eq_mul_boole (c4 = '1') (2 ^ 4), ite_eq_mul_boole (c5 = '1') (2 ^ 3),
      ite_eq_mul_boole (c6 = '1') (2 ^ 2), ite_eq_mul_boole (c7 = '1') (2 ^ 1),
      ite_eq_mul_boole (c8 = '1') (2 ^ 0)]
  ring

/-- C6 counterexample: the reference expression `"b"` selects reference tap 0,
but the derived mask is `256 = 2^8` (tap 0 is the **most** significant of the
nine bits), so bit 0 of the mask is clear — refuting the LSB = ReferenceId 0
reading. -/
theorem reference_mask_counterexample :
    parse_references ['b'] = .ok ['1', '0', '0', '0', '0', '0', '0', '0', '0']
      ∧ get_refs ['1', '0', '0', '0', '0', '0', '0', '0', '0'] = 256
      ∧ Nat.testBit 256 0 = false :=
  ⟨by decide, by decide, by decide⟩

/-- C6 (amended): for every parsed reference set, the derived mask interprets
position `i` of the 9-character reference string (ReferenceId `i`) as bit
`8 - i` of the integer: the most significant bit corresponds to
ReferenceId 0. -/
theorem get_refs_msb_order (r refs : List Char)
    (h : parse_references r = .ok refs) :
    get_refs refs
      = ∑ i in Finset.range 9,
          (if refs.getD i '0' = '1' then 2 ^ (8 - i) else 0) := by
  obtain ⟨sel, rfl⟩ := parse_references_shape r refs h
  have hIR : intRange 0 8 = [0, 1, 2, 3, 4, 5, 6, 7, 8] := by decide
  rw [hIR]
  simp only [List.map_cons, List.map_nil]
  exact int_base2_nine _ _ _ _ _ _ _ _ _

/-- Witness for `get_refs_msb_order` at the concrete expression `"b"`. -/
theorem get_refs_msb_order_witness :
    get_refs ['1', '0', '0', '0', '0', '0', '0', '0', '0']
      = ∑ i in Finset.range 9,
          (if ['1', '0', '0', '0', '0', '0', '0', '0', '0'].getD i '0' = '1'
           then 2 ^ (8 - i) else 0) :=
  get_refs_msb_order ['b'] _ (by decide)

/-! ### Claim theorems: range-parser ordering (C5) and reversed ranges (C8) -/

/-- C5: for every expression and every (strictly ascending) universe, a
successful `parse_numbers` result is strictly ascending, duplicate-free, and
a subset of the universe; and `parse_numbers "-" U` returns the whole
universe. -/
theorem parse_numbers_sorted_subset (e : List Char) (U : List Int)
    (hU : List.Sorted (· < ·) U) :
    (∀ r, parse_numbers e U = .ok r →
        List.Sorted (· < ·) r ∧ ∀ x ∈ r, x ∈ U)
      ∧ parse_numbers ['-'] U = .ok U := by
  constructor
  · intro r h
    rw [parse_numbers] at h
    split at h
    · simp at h
    split at h
    · simp at h
    split at h
    · simp at h
    rename_i result heq
    split at h
    case isFalse => simp at h
    case isTrue hall =>
      obtain rfl : result = r := Except.ok.inj h
      refine ⟨?_, ?_⟩
      · -- sortedness, by the branch that produced `result`
        split at heq
        · obtain rfl := Except.ok.inj heq
          exact hU
        · split at heq
          · split at heq
            · obtain rfl := Except.ok.inj heq
              simp
            · simp at heq
          · split at heq
            · rename_i parts hparts
              obtain rfl := Except.ok.inj heq
              rw [List.Sorted, List.pairwise_map]
              exact (sorted_npUnique parts.flatten).imp (by intro a b hab; omega)
            · simp at heq
      · intro x hx
        have := List.all_eq_true.mp hall x hx
        exact (contains_true_iff U x).mp this
  · rw [parse_numbers]
    have h1 : hasDouble ',' ['-'] = false := rfl
    have h2 : hasDouble '-' ['-'] = false := rfl
    rw [h1, h2]
    have hall : (U.all fun x => U.contains x) = true :=
      List.all_eq_true.mpr (fun x hx => (contains_true_iff U x).mpr hx)
    simp [hall]

/-- Witness for `parse_numbers_sorted_subset` at `e = "6-4"`,
`U = [0..9]`. -/
theorem parse_numbers_sorted_subset_witness :
    List.Sorted (· < ·) ([3, 4, 5] : List Int)
      ∧ (∀ x ∈ ([3, 4, 5] : List Int), x ∈ intRange 0 9) := by
  have h := (parse_numbers_sorted_subset ['6', '-', '4'] (intRange 0 9) (by decide)).1
  exact h [3, 4, 5] (by decide)

/-- C8: a two-sided range item `a-b` with `a > b` parses as the reversed
(swapped) range `[b..a]`; in particular
`parse_numbers "6-4" [0..9] = [3,4,5]` after the 1-indexed shift. -/
theorem parse_item_reversed_range (s1 s2 : List Char) (a b : Int)
    (h1 : s1 ≠ []) (h2 : '-' ∉ s1) (h3 : '-' ∉ s2) (h4 : s2 ≠ [])
    (ha : int_of s1 = some a) (hb : int_of s2 = some b) (hab : b < a) :
    parse_item (s1 ++ '-' :: s2) = .ok (intRange b a)
      ∧ parse_numbers ['6', '-', '4'] (intRange 0 9) = .ok [3, 4, 5] := by
  constructor
  · obtain ⟨c, rest, rfl⟩ : ∃ c rest, s1 = c :: rest := by
      cases s1 with
      | nil => exact absurd rfl h1
      | cons c rest => exact ⟨c, rest, rfl⟩
    have hc : ¬(c = '-') := fun hcc => h2 (hcc ▸ List.mem_cons_self c rest)
    rw [List.cons_append, parse_item]
    have hlast : (c :: (rest ++ '-' :: s2)).getLast (by simp) = s2.getLast h4 :=
      (List.getLast_append' (c :: rest) ('-' :: s2) (by simp)).trans
        (List.getLast_append' ['-'] s2 h4)
    have hlastne : ¬((c :: (rest ++ '-' :: s2)).getLast (by simp) = '-') := by
      rw [hlast]
      intro hcontra
      exact h3 (hcontra ▸ List.getLast_mem h4)
    have hmem : (c :: (rest ++ '-' :: s2)).contains '-' = true := by
      simp [List.contains_cons]
    have hsplit : pySplit '-' (c :: (rest ++ '-' :: s2)) = (c :: rest) :: [s2] := by
      have e1 : c :: (rest ++ '-' :: s2) = (c :: rest) ++ '-' :: s2 := rfl
      rw [e1, pySplit_append '-' (c :: rest) s2 h2, pySplit_of_not_mem '-' s2 h3]
    rw [if_neg hc, if_neg hlastne, if_pos hmem]
    simp only [hsplit]
    rw [ha, hb]
    change (if a > b then Except.ok (intRange b a) else Except.ok (intRange a b)) = _
    rw [if_pos hab]
  · decide

/-- Witness for `parse_item_reversed_range` at the item `"6-4"`. -/
theorem parse_item_reversed_range_witness :
    parse_item (['6'] ++ '-' :: ['4']) = .ok (intRange 4 6)
      ∧ parse_numbers ['6', '-', '4'] (intRange 0 9) = .ok [3, 4, 5] :=
  parse_item_reversed_range ['6'] ['4'] 6 4 (by decide) (by decide) (by decide)
    (by decide) (by decide) (by decide) (by decide)

/-! ### Settings data model (VB_classes.py dataclasses)

Python dataclass fields that never influence the merge / upload control flow
(hardware ids, software version strings, …) are omitted; the `dict` fields
become insertion-ordered association lists. -/

structure ChanSettings where
  references : List Char
  gain : Int
  input : Int
  deriving DecidableEq, Repr

structure SUSettings where
  polarity : Int
  pulses : Int
  prephase : Int
  amplitude1 : Int
  width1 : Int
  interphase : Int
  amplitude2 : Int
  width2 : Int
  discharge : Int
  duration : Int
  aftertrain : Int
  deriving DecidableEq, Repr

structure ProbeSettings where
  channel : List (Int × ChanSettings) := []
  stim_unit_sett : List (Int × SUSettings) := []
  stim_unit_elec : List (Int × List Int) := []
  deriving DecidableEq, Repr

structure BoxSettings where
  probes : List (Int × ProbeSettings) := []
  deriving DecidableEq, Repr

structure GeneralSettings where
  boxes : List (Int × BoxSettings) := []
  deriving DecidableEq, Repr

/-- `GeneralSettings.connected`: for every box with a non-empty probe dict,
the list of its probe keys (in insertion order). -/
def GeneralSettings.connected (s : GeneralSettings) : List (Int × List Int) :=
  s.boxes.filterMap
    (fun bp => if bp.2.probes = [] then none
               else some (bp.1, bp.2.probes.map Prod.fst))

/-- Update the probe settings at `(box, probe)` in place.  The Python
original indexes `self.boxes[box].probes[probe]` directly; all call sites
iterate addresses obtained from `connected`, so the keys are present and the
missing-key case (a `KeyError` in Python) is modelled as a no-op. -/
def updateProbe (s : GeneralSettings) (box probe : Int)
    (f : ProbeSettings → ProbeSettings) : GeneralSettings :=
  match pyLookup s.boxes box with
  | none => s
  | some bs =>
    match pyLookup bs.probes probe with
    | none => s
    | some ps => ⟨pyInsert box ⟨pyInsert probe (f ps) bs.probes⟩ s.boxes⟩

/-- `GeneralSettings.reset_recording_settings`: clear every connected probe's
channel dict. -/
def GeneralSettings.reset_recording_settings (s : GeneralSettings) : GeneralSettings :=
  s.connected.foldl
    (fun st bp => bp.2.foldl
      (fun st2 p => updateProbe st2 bp.1 p (fun ps => { ps with channel := [] })) st)
    s

/-- `GeneralSettings.reset_stimulation_settings`: clear every connected
probe's stim-unit and electrode-mapping dicts. -/
def GeneralSettings.reset_stimulation_settings (s : GeneralSettings) : GeneralSettings :=
  s.connected.foldl
    (fun st bp => bp.2.foldl
      (fun st2 p => updateProbe st2 bp.1 p
        (fun ps => { ps with stim_unit_sett := [], stim_unit_elec := [] })) st)
    s

/-! ### Device lifecycle: settings uploads (control.py)

`ViperBox.recording_settings` / `ViperBox.stimulation_settings` interact with
collaborators that live outside the embedded state: the XML parser
(`etree.fromstring`, modelled by the flag `xml_ok`), the validation engine
(`check_xml_boxprobes_exist_and_verify_data_with_settings`, modelled by the
oracle `check`), the merge engine (`update_settings_with_XML`, oracle `upd`)
and the device driver upload (`_upload_recording_settings` /
`_upload_stimulation_settings`, oracle `upload`, whose exceptions are the
`Except.error` case).  `copy.deepcopy` is the identity on immutable Lean
values. -/

structure StatusTracking where
  recording : Bool := false
  box_connected : Bool := false
  stimulation_settings_uploaded : Bool := false
  stimulation_settings_written_to_stimrec : Bool := false
  stimset_upload_times : Int × Int := (0, 0)
  deriving DecidableEq, Repr

structure VBState where
  local_settings : GeneralSettings := {}
  uploaded_settings : GeneralSettings := {}
  tracking : StatusTracking := {}
  boxless : Bool := false
  deriving DecidableEq, Repr

/-- `ViperBox.recording_settings` (control.py lines 491-564). -/
def recording_settings (vb : VBState) (xml_ok : Bool)
    (check : GeneralSettings → Bool × String) (reset : Bool)
    (upd : GeneralSettings → GeneralSettings)
    (upload : GeneralSettings → Except String Unit) :
    VBState × Bool × String :=
  if vb.boxless = false ∧ vb.tracking.box_connected = false then
    (vb, false, "Not connected to ViperBox")
  else if vb.tracking.recording then
    (vb, false,
     "Recording in progress, cannot change settings. To verify custom XML settings, use the verify_xml API call.")
  else if xml_ok = false then
    (vb, false, "Invalid xml string.")
  else
    let tmp_local_settings := vb.local_settings
    if (check tmp_local_settings).1 = false then
      (vb, false, (check tmp_local_settings).2)
    else
      let tmp_local_settings :=
        if reset then tmp_local_settings.reset_recording_settings
        else tmp_local_settings
      let updated_tmp_settings := upd tmp_local_settings
      match upload updated_tmp_settings with
      | .error _ =>
        (vb, false,
         "Error in uploading recording settings, settings not applied and reverted to previous settings.")
      | .ok _ =>
        ({ vb with
            local_settings := updated_tmp_settings
            uploaded_settings := updated_tmp_settings },
         true, "Recording settings loaded")

/-- `ViperBox.stimulation_settings` (control.py lines 648-724).  The
recording-in-progress guard is commented out in the source; inside the `try`,
a successful upload also updates the uploaded baseline and the tracking
flags, and the upload timing pair is recorded afterwards. -/
def stimulation_settings (vb : VBState) (xml_ok : Bool)
    (check : GeneralSettings → Bool × String) (reset : Bool)
    (upd : GeneralSettings → GeneralSettings)
    (upload : GeneralSettings → Except String Unit)
    (start_time dt_time : Int) :
    VBState × Bool × String :=
  if vb.boxless = false ∧ vb.tracking.box_connected = false then
    (vb, false, "Not connected to ViperBox")
  else if xml_ok = false then
    (vb, false, "Invalid xml string.")
  else
    let tmp_local_settings := vb.local_settings
    if (check tmp_local_settings).1 = false then
      (vb, false, (check tmp_local_settings).2)
    else
      let tmp_local_settings :=
        if reset then tmp_local_settings.reset_stimulation_settings
        else tmp_local_settings
      let updated_tmp_settings := upd tmp_local_settings
      match upload updated_tmp_settings with
      | .error _ =>
        (vb, false,
         "Error in uploading stimulation settings, settings not applied and reverted to previous settings.")
      | .ok _ =>
        ({ vb with
            uploaded_settings := updated_tmp_settings
            local_settings := updated_tmp_settings
            tracking := { vb.tracking with
              stimulation_settings_uploaded := true
              stimulation_settings_written_to_stimrec := false
              stimset_upload_times := (start_time, dt_time) } },
         true, "Stimulation settings loaded")

/-! ### Claim theorems: snapshot-validate-upload-commit atomicity (C1) -/

/-- C1: for both settings uploads, any failure (validation or device upload)
leaves the live `GeneralSettings` and the uploaded baseline exactly equal to
their pre-call values, and on success the live model and baseline are
replaced by the working copy and the upload provably succeeded on it. -/
theorem settings_upload_atomic (vb : VBState) (xml_ok : Bool)
    (check : GeneralSettings → Bool × String) (reset : Bool)
    (upd : GeneralSettings → GeneralSettings)
    (upload : GeneralSettings → Except String Unit)
    (start_time dt_time : Int) :
    (∀ vb' ok msg,
        recording_settings vb xml_ok check reset upd upload = (vb', ok, msg) →
        (ok = false →
          vb'.local_settings = vb.local_settings
            ∧ vb'.uploaded_settings = vb.uploaded_settings)
        ∧ (ok = true →
            (check vb.local_settings).1 = true
              ∧ upload (upd (if reset then
                  vb.local_settings.reset_recording_settings
                else vb.local_settings)) = .ok ()
              ∧ vb'.local_settings = upd (if reset then
                  vb.local_settings.reset_recording_settings
                else vb.local_settings)
              ∧ vb'.uploaded_settings = vb'.local_settings))
    ∧ (∀ vb' ok msg,
        stimulation_settings vb xml_ok check reset upd upload start_time dt_time
            = (vb', ok, msg) →
        (ok = false →
          vb'.local_settings = vb.local_settings
            ∧ vb'.uploaded_settings = vb.uploaded_settings)
        ∧ (ok = true →
            (check vb.local_settings).1 = true
              ∧ upload (upd (if reset then
                  vb.local_settings.reset_stimulation_settings
                else vb.local_settings)) = .ok ()
              ∧ vb'.local_settings = upd (if reset then
                  vb.local_settings.reset_stimulation_settings
                else vb.local_settings)
              ∧ vb'.uploaded_settings = vb'.local_settings)) := by
  constructor
  · intro vb' ok msg h
    simp only [recording_settings] at h
    split at h
    · injection h with h1 h2; injection h2 with h2 h3; subst h1; subst h2
      exact ⟨fun _ => ⟨rfl, rfl⟩, fun hok => Bool.noConfusion hok⟩
    split at h
    · injection h with h1 h2; injection h2 with h2 h3; subst h1; subst h2
      exact ⟨fun _ => ⟨rfl, rfl⟩, fun hok => Bool.noConfusion hok⟩
    split at h
    · injection h with h1 h2; injection h2 with h2 h3; subst h1; subst h2
      exact ⟨fun _ => ⟨rfl, rfl⟩, fun hok => Bool.noConfusion hok⟩
    split at h
    · injection h with h1 h2; injection h2 with h2 h3; subst h1; subst h2
      exact ⟨fun _ => ⟨rfl, rfl⟩, fun hok => Bool.noConfusion hok⟩
    · rename_i hcheck
      split at h
      · injection h with h1 h2; injection h2 with h2 h3; subst h1; subst h2
        exact ⟨fun _ => ⟨rfl, rfl⟩, fun hok => Bool.noConfusion hok⟩
      · rename_i u heq
        injection h with h1 h2; injection h2 with h2 h3; subst h1; subst h2
        refine ⟨fun hok => Bool.noConfusion hok, fun _ => ⟨?_, ?_, rfl, rfl⟩⟩
        · revert hcheck; cases (check vb.local_settings).1 <;> simp
        · cases u; exact heq
  · intro vb' ok msg h
    simp only [stimulation_settings] at h
    split at h
    · injection h with h1 h2; injection h2 with h2 h3; subst h1; subst h2
      exact ⟨fun _ => ⟨rfl, rfl⟩, fun hok => Bool.noConfusion hok⟩
    split at h
    · injection h with h1 h2; injection h2 with h2 h3; subst h1; subst h2
      exact ⟨fun _ => ⟨rfl, rfl⟩, fun hok => Bool.noConfusion hok⟩
    split at h
    · injection h with h1 h2; injection h2 with h2 h3; subst h1; subst h2
      exact ⟨fun _ => ⟨rfl, rfl⟩, fun hok => Bool.noConfusion hok⟩
    · rename_i hcheck
      split at h
      · injection h with h1 h2; injection h2 with h2 h3; subst h1; subst h2
        exact ⟨fun _ => ⟨rfl, rfl⟩, fun hok => Bool.noConfusion hok⟩
      · rename_i u heq
        injection h with h1 h2; injection h2 with h2 h3; subst h1; subst h2
        refine ⟨fun hok => Bool.noConfusion hok, fun _ => ⟨?_, ?_, rfl, rfl⟩⟩
        · revert hcheck; cases (check vb.local_settings).1 <;> simp
        · cases u; exact heq

/-- Example state for the C1 witness: connected, not recording. -/
def vbEx : VBState := { tracking := { box_connected := true } }

/-- Witness for `settings_upload_atomic`: a failing validation leaves the
live settings and baseline untouched. -/
theorem settings_upload_atomic_witness :
    vbEx.local_settings = vbEx.local_settings
      ∧ vbEx.uploaded_settings = vbEx.uploaded_settings :=
  ((settings_upload_atomic vbEx true (fun _ => (false, "invalid")) false id
      (fun _ => .ok ()) 0 0).1 vbEx false "invalid" rfl).1 rfl

/-! ### Streaming pipeline (data_thread.py) -/

/-- A packet as returned by `NVP.streamReadData`: only the fields the
underrun branch touches. -/
structure Packet where
  timestamp : Int
  status : Nat
  deriving DecidableEq, Repr

/-- Outcome of one iteration of `_DataSenderThread.send_data`'s `while`
loop when it does not raise. -/
inductive StreamStep
  | stopped
  | underrunHandled
  | sent
  deriving DecidableEq, Repr

/-- A Python list comprehension over fallible element expressions: it raises
as soon as one element raises. -/
def optMapM {α β : Type} (f : α → Option β) : List α → Option (List β)
  | [] => some []
  | a :: as =>
    match f a with
    | none => none
    | some b => (optMapM f as).map (fun bs => b :: bs)

/-- One iteration of the `while not self.stop_stream.is_set()` loop of
`send_data` (data_thread.py lines 114-157), up to the branch decision.
`packets = NVP.streamReadData(handle, NUM_SAMPLES)` is the oracle input.
In the underrun branch the code first builds the debug lists
`asdf = [packets[i].timestamp for i in range(500)]` and
`subtracted = [asdf[i+1] - asdf[i] - 5 for i in range(499)]` (with the batch
size hard-coded as 500/499), then re-sends the previous frame, spins until
the pacing deadline, sleeps, bumps the counter and `continue`s
(`underrunHandled`).  A full batch is transformed and sent (`sent`); an
empty read `break`s the loop (`stopped`). -/
def send_data_iteration (NUM_SAMPLES : Nat) (packets : List Packet) :
    Except PyErr StreamStep :=
  let count := packets.length
  if count = 0 then
    .ok .stopped
  else if count < NUM_SAMPLES then
    match optMapM (fun i => (packets.get? i).map Packet.timestamp) (List.range 500) with
    | none => .error .indexError
    | some asdf =>
      match optMapM (fun i =>
          (asdf.get? (i + 1)).bind (fun x1 => (asdf.get? i).map (fun x0 => x1 - x0 - 5)))
          (List.range 499) with
      | none => .error .indexError
      | some _ => .ok .underrunHandled
  else
    .ok .sent

theorem optMapM_eq_none {α β : Type} (f : α → Option β) (l : List α)
    (x : α) (hx : x ∈ l) (hfx : f x = none) : optMapM f l = none := by
  induction l with
  | nil => simp at hx
  | cons a as ih =>
    rcases List.mem_cons.mp hx with rfl | hx2
    · simp [optMapM, hfx]
    · rcases hfa : f a with _ | b
      · simp [optMapM, hfa]
      · simp [optMapM, hfa, ih hx2]

/-! ### Claim theorem: underrun handling raises (C3) -/

/-- C3: contrary to the claim (and the branch's own intent — it logs
`"Sending empty data."` and `continue`s), an underrun batch of `count`
packets with `0 < count < 500` raises `IndexError` while building the
timestamp debug list `[packets[i].timestamp for i in range(500)]`, because
the list length is hard-coded to 500 but only `count` packets exist. -/
theorem send_data_underrun_raises (packets : List Packet)
    (h0 : 0 < packets.length) (h1 : packets.length < 500) :
    send_data_iteration 500 packets = .error .indexError := by
  rw [send_data_iteration]
  have hne : ¬(packets.length = 0) := by omega
  rw [if_neg hne, if_pos h1]
  have hnone : optMapM
      (fun i => (packets.get? i).map Packet.timestamp) (List.range 500) = none := by
    refine optMapM_eq_none _ _ packets.length (List.mem_range.mpr h1) ?_
    rw [List.get?_eq_none.mpr (le_refl _)]
    rfl
  rw [hnone]

/-- Witness for `send_data_underrun_raises`: a 200-packet read. -/
theorem send_data_underrun_raises_witness :
    send_data_iteration 500 ((List.range 200).map (fun i => Packet.mk (Int.ofNat i) 0)) =
      .error .indexError :=
  send_data_underrun_raises _ (by simp) (by simp)

/-! ### Script scheduler (control.py `run_script`)

The scheduling skeleton of `ViperBox.run_script` (lines 1281-1369): the
wall clock is modelled as a state component; the busy-wait
`while time.time() < initial_time + float(start_time): time.sleep(0.01)`
is idealised as advancing the clock to the deadline when it lies in the
future (the 0.01 s polling granularity and the operations' own durations are
abstracted away).  `initial_time` starts at the literal `-2.0` of the source
and is reassigned to `time.time()` when a `recording_start` instruction is
reached.  Settings grandchildren are flattened into one entry list per
`Settings` element (the child/grandchild nesting only fixes the iteration
order). -/

inductive SettingKind
  | channel
  | configuration
  | mapping
  deriving DecidableEq, Repr

inductive InstrType
  | recording_start
  | stimulation_start
  | recording_stop
  deriving DecidableEq, Repr

inductive ScriptElement
  | settingsSection (entries : List (SettingKind × Int))
  | instructionsSection (entries : List (InstrType × Int))
  deriving DecidableEq, Repr

inductive ScriptEvent
  | uploadRecording (start_time : Int)
  | uploadStimulation (start_time : Int)
  | recordingStart (start_time : Int)
  | stimulationStart (start_time : Int)
  | recordingStop (start_time : Int)
  deriving DecidableEq, Repr

structure SchedState where
  now : Int
  initial_time : Int
  deriving DecidableEq, Repr

/-- The busy-wait loop: the clock leaves the loop as soon as it is at or
past `deadline`. -/
def waitUntil (st : SchedState) (deadline : Int) : SchedState :=
  { st with now := max st.now deadline }

/-- The operation a Settings grandchild invokes: `Channel` elements call
`recording_settings`, `Configuration`/`Mapping` elements call
`stimulation_settings`. -/
def mkSettingsEvent (k : SettingKind) (t : Int) : ScriptEvent :=
  match k with
  | .channel => .uploadRecording t
  | .configuration => .uploadStimulation t
  | .mapping => .uploadStimulation t

/-- Process one Settings grandchild: wait until
`initial_time + start_time`, then invoke the upload. -/
def runGrand (st : SchedState) (e : SettingKind × Int) :
    SchedState × (ScriptEvent × Int) :=
  let st2 := waitUntil st (st.initial_time + e.2)
  (st2, (mkSettingsEvent e.1 e.2, st2.now))

/-- Process one Instructions child.  `recording_start` first captures
`initial_time = time.time()` and only then waits. -/
def runInstr (st : SchedState) (e : InstrType × Int) :
    SchedState × (ScriptEvent × Int) :=
  match e.1 with
  | .recording_start =>
    let st1 : SchedState := { st with initial_time := st.now }
    let st2 := waitUntil st1 (st1.initial_time + e.2)
    (st2, (.recordingStart e.2, st2.now))
  | .stimulation_start =>
    let st2 := waitUntil st (st.initial_time + e.2)
    (st2, (.stimulationStart e.2, st2.now))
  | .recording_stop =>
    let st2 := waitUntil st (st.initial_time + e.2)
    (st2, (.recordingStop e.2, st2.now))

/-- Sequential processing of a list of entries, collecting the invocation
trace as `(operation, invocation time)` pairs. -/
def runEntries {α : Type} (step : SchedState → α → SchedState × (ScriptEvent × Int))
    (st : SchedState) : List α → SchedState × List (ScriptEvent × Int)
  | [] => (st, [])
  | e :: rest =>
    let p := step st e
    let q := runEntries step p.1 rest
    (q.1, p.2 :: q.2)

def runElement (st : SchedState) (el : ScriptElement) :
    SchedState × List (ScriptEvent × Int) :=
  match el with
  | .settingsSection entries => runEntries runGrand st entries
  | .instructionsSection entries => runEntries runInstr st entries

/-- The scheduling loop of `run_script`: document order over the root's
elements, starting with `initial_time = -2.0` and the wall clock at `t0`. -/
def run_script_schedule (script : List ScriptElement) (t0 : Int) :
    List (ScriptEvent × Int) :=
  (script.foldl
    (fun acc el =>
      let p := runElement acc.1 el
      (p.1, acc.2 ++ p.2))
    (({ now := t0, initial_time := -2 } : SchedState), [])).2

/-! ### Claim theorems: script scheduling anchors (C4) -/

/-- C4 counterexample: a script whose only entry is a Settings entry with
`start_time = 5`, started when the wall clock reads 1000.  The claim's
anchor (script start) demands an invocation time of at least 1005; the code
invokes the upload immediately at 1000, because the Settings wait is
anchored at the constant `-2.0`. -/
theorem script_settings_anchor_counterexample :
    run_script_schedule [.settingsSection [(.channel, 5)]] 1000
        = [(.uploadRecording 5, 1000)]
      ∧ ¬((1000 : Int) ≥ 1000 + 5) := by
  constructor
  · rfl
  · decide

/-- C4 (amended): entries are processed strictly sequentially in document
order; each entry waits until `anchor + start_time`, where the anchor is the
mutable `initial_time`: it is the constant `-2.0` for Settings entries (so
for realistic clock values, `start_time ≤ now + 2`, Settings entries run
immediately with no wait), and it is reset to the wall-clock instant at
which the `recording_start` instruction is *reached* (before its own wait);
subsequent Instructions entries (and `recording_start` itself) are scheduled
relative to that instant. -/
theorem script_schedule_anchors (now0 : Int) (pre : List (SettingKind × Int))
    (t0 t1 t2 : Int)
    (hpre : ∀ e ∈ pre, e.2 ≤ now0 + 2)
    (h0 : 0 ≤ t0) (h1 : t0 ≤ t1) (h2 : t1 ≤ t2) :
    run_script_schedule
        [.settingsSection pre,
         .instructionsSection
           [(.recording_start, t0), (.stimulation_start, t1),
            (.recording_stop, t2)]] now0
      = (pre.map (fun e => (mkSettingsEvent e.1 e.2, now0)))
        ++ [(.recordingStart t0, now0 + t0),
            (.stimulationStart t1, now0 + t1),
            (.recordingStop t2, now0 + t2)] := by
  have hsettings : ∀ (l : List (SettingKind × Int)), (∀ e ∈ l, e.2 ≤ now0 + 2) →
      runEntries runGrand ({ now := now0, initial_time := -2 } : SchedState) l
        = ({ now := now0, initial_time := -2 }, l.map (fun e => (mkSettingsEvent e.1 e.2, now0))) := by
    intro l
    induction l with
    | nil => intro _; rfl
    | cons e rest ih =>
      intro hl
      have he : e.2 ≤ now0 + 2 := hl e (List.mem_cons_self e rest)
      have hstep : runGrand ({ now := now0, initial_time := -2 } : SchedState) e
          = ({ now := now0, initial_time := -2 }, (mkSettingsEvent e.1 e.2, now0)) := by
        rw [runGrand, waitUntil]
        have : max now0 (-2 + e.2) = now0 := max_eq_left (by omega)
        simp [this]
      rw [runEntries, hstep, ih (fun x hx => hl x (List.mem_cons_of_mem e hx))]
      rfl
  rw [run_script_schedule]
  simp only [List.foldl_cons, List.foldl_nil, runElement]
  rw [hsettings pre hpre]
  have hmax0 : max now0 (now0 + t0) = now0 + t0 := max_eq_right (by omega)
  have hmax1 : max (now0 + t0) (now0 + t1) = now0 + t1 := max_eq_right (by omega)
  have hmax2 : max (now0 + t1) (now0 + t2) = now0 + t2 := max_eq_right (by omega)
  simp only [runEntries, runInstr, waitUntil, List.nil_append]
  simp only [hmax0, hmax1, hmax2]

/-- Witness for `script_schedule_anchors` at a concrete script. -/
theorem script_schedule_anchors_witness :
    run_script_schedule
        [.settingsSection [(.channel, 5)],
         .instructionsSection
           [(.recording_start, 1), (.stimulation_start, 3),
            (.recording_stop, 6)]] 1000
      = [(.uploadRecording 5, 1000), (.recordingStart 1, 1001),
         (.stimulationStart 3, 1003), (.recordingStop 6, 1006)] := by
  have h := script_schedule_anchors 1000 [(.channel, 5)] 1 3 6
    (by decide) (by decide) (by decide) (by decide)
  simpa using h

/-! ### Validation & merge engine (XML_handler.py `overwrite_settings`)

A batch is the parsed XML document: a list of sections
(`RecordingSettings` / `StimulationWaveformSettings` /
`StimulationMappingSettings`), each containing typed setting records whose
attributes are the raw strings of the document.  `overwrite_settings` walks
the sections admitted by `check_topic`, resolves each record's address
expressions against the working copy's `connected` view, validates the
payload and writes the parsed values into the working copy; any failure
raises (`Except.error`) and the caller discards the working copy. -/

def emapM {α β : Type} (f : α → Except PyErr β) : List α → Except PyErr (List β)
  | [] => .ok []
  | a :: as =>
    match f a with
    | .error e => .error e
    | .ok b =>
      match emapM f as with
      | .error e => .error e
      | .ok bs => .ok (b :: bs)

/-- A `for` loop threading state, where the body may raise. -/
def efoldl {σ α : Type} (f : σ → α → Except PyErr σ) : σ → List α → Except PyErr σ
  | st, [] => .ok st
  | st, a :: as =>
    match f st a with
    | .error e => .error e
    | .ok st2 => efoldl f st2 as

/-- The payload attributes of a `Configuration` (stim-waveform) element. -/
structure SUPayload where
  polarity : List Char
  pulses : List Char
  prephase : List Char
  amplitude1 : List Char
  width1 : List Char
  interphase : List Char
  amplitude2 : List Char
  width2 : List Char
  discharge : List Char
  duration : List Char
  aftertrain : List Char
  deriving DecidableEq, Repr

/-- `XML_settings.attrib[name]` for the waveform fields (`verify_params`
only ever looks up the 11 field names, which all exist). -/
def suAttr (p : SUPayload) (name : String) : List Char :=
  match name with
  | "polarity" => p.polarity
  | "pulses" => p.pulses
  | "prephase" => p.prephase
  | "amplitude1" => p.amplitude1
  | "width1" => p.width1
  | "interphase" => p.interphase
  | "amplitude2" => p.amplitude2
  | "width2" => p.width2
  | "discharge" => p.discharge
  | "duration" => p.duration
  | "aftertrain" => p.aftertrain
  | _ => []

/-- The three record kinds of a settings document, with their address and
payload attributes as raw strings. -/
inductive XMLRecord
  | channel (box probe channel references gain input : List Char)
  | configuration (box probe stimunit : List Char) (payload : SUPayload)
  | mapping (box probe stimunit electrodes : List Char)
  deriving DecidableEq, Repr

inductive SectionTag
  | recordingSettings
  | stimulationWaveformSettings
  | stimulationMappingSettings
  deriving DecidableEq, Repr

structure XMLSection where
  tag : SectionTag
  records : List XMLRecord
  deriving DecidableEq, Repr

inductive Topic
  | all
  | recording
  | stimulation
  deriving DecidableEq, Repr

/-- The section tags admitted for a `check_topic` value. -/
def topicTags : Topic → List SectionTag
  | .all => [.recordingSettings, .stimulationWaveformSettings,
             .stimulationMappingSettings]
  | .recording => [.recordingSettings]
  | .stimulation => [.stimulationWaveformSettings, .stimulationMappingSettings]

/-- Python `int(s)` raising `ValueError`. -/
def intOfE (s : List Char) : Except PyErr Int :=
  match int_of s with
  | some x => .ok x
  | none => .error (.valueError "invalid literal for int()")

/-- `check_gain_input_format` (XML_handler.py lines 68-83). -/
def check_gain_input_format (g : List Char) : Except PyErr Bool :=
  match intOfE g with
  | .error e => .error e
  | .ok gain =>
    let gain := gain + 1
    if gain = 1 ∨ gain = 2 ∨ gain = 3 ∨ gain = 4 then .ok true
    else .error (.valueError "Gain/input should be an integer between 1 and 4")

/-- `ChanSettings.from_dict`: `references` through `parse_references`, the
remaining annotated fields through `int()`. -/
def ChanSettings.from_dict (references gain input : List Char) :
    Except PyErr ChanSettings :=
  match parse_references references with
  | .error e => .error e
  | .ok refs =>
    match intOfE gain with
    | .error e => .error e
    | .ok g =>
      match intOfE input with
      | .error e => .error e
      | .ok i => .ok ⟨refs, g, i⟩

/-- `SUSettings.from_dict`: every annotated field through `int()`. -/
def SUSettings.from_dict (p : SUPayload) : Except PyErr SUSettings :=
  match emapM intOfE [p.polarity, p.pulses, p.prephase, p.amplitude1, p.width1,
      p.interphase, p.amplitude2, p.width2, p.discharge, p.duration,
      p.aftertrain] with
  | .error e => .error e
  | .ok vs =>
    .ok ⟨vs.getD 0 0, vs.getD 1 0, vs.getD 2 0, vs.getD 3 0, vs.getD 4 0,
         vs.getD 5 0, vs.getD 6 0, vs.getD 7 0, vs.getD 8 0, vs.getD 9 0,
         vs.getD 10 0⟩

/-- The `for parameter_set in verify_params` loop of the `Configuration`
branch: convert each attribute with `int()` and run `verify_step_min_max`. -/
def verifyLoop (p : SUPayload) :
    List (String × Int × Int × Int) → Except PyErr Bool
  | [] => .ok true
  | (name, step, mn, mx) :: rest =>
    match intOfE (suAttr p name) with
    | .error e => .error e
    | .ok v =>
      match verify_step_min_max name step mn mx v with
      | .error e => .error e
      | .ok _ => verifyLoop p rest

/-! #### Writes: the elementary assignments of the merge -/

inductive SlotWrite
  | chanW (channel : Int) (v : ChanSettings)
  | suW (stimunit : Int) (v : SUSettings)
  | elecW (stimunit : Int) (v : List Int)
  deriving DecidableEq, Repr

structure Write where
  box : Int
  probe : Int
  slot : SlotWrite
  deriving DecidableEq, Repr

def applySlot (ps : ProbeSettings) (w : SlotWrite) : ProbeSettings :=
  match w with
  | .chanW c v => { ps with channel := pyInsert c v ps.channel }
  | .suW u v => { ps with stim_unit_sett := pyInsert u v ps.stim_unit_sett }
  | .elecW u v => { ps with stim_unit_elec := pyInsert u v ps.stim_unit_elec }

/-- A single dict assignment
`local_settings.boxes[box].probes[probe].<field>[key] = value`. -/
def applyWrite (s : GeneralSettings) (w : Write) : Except PyErr GeneralSettings :=
  match pyLookup s.boxes w.box with
  | none => .error (.keyError "box")
  | some bs =>
    match pyLookup bs.probes w.probe with
    | none => .error (.keyError "probe")
    | some ps =>
      .ok ⟨pyInsert w.box ⟨pyInsert w.probe (applySlot ps w.slot) bs.probes⟩ s.boxes⟩

def applyWrites (s : GeneralSettings) (ws : List Write) :
    Except PyErr GeneralSettings :=
  efoldl applyWrite s ws

/-- `local_settings.connected[box]` (`KeyError` when absent). -/
def connectedAt (s : GeneralSettings) (box : Int) : Except PyErr (List Int) :=
  match pyLookup s.connected box with
  | some ps => .ok ps
  | none => .error (.keyError "box")

/-- Validation and parsed value for one channel assignment (the body of the
`for channel in all_channels` loop, up to the dict write). -/
def channelItemWrite (box probe ch : Int) (references gain input : List Char) :
    Except PyErr Write :=
  match check_gain_input_format gain with
  | .error e => .error e
  | .ok _ =>
    match check_gain_input_format input with
    | .error e => .error e
    | .ok _ =>
      match ChanSettings.from_dict references gain input with
      | .error e => .error e
      | .ok cs => .ok ⟨box, probe, .chanW ch cs⟩

/-- The body of the `for waveform in all_waveforms` loop, up to the write. -/
def configItemWrite (box probe su : Int) (p : SUPayload) : Except PyErr Write :=
  match verifyLoop p verify_params with
  | .error e => .error e
  | .ok _ =>
    match SUSettings.from_dict p with
    | .error e => .error e
    | .ok v => .ok ⟨box, probe, .suW su v⟩

/-- The body of the `for mapping in all_mappings` loop, up to the write. -/
def mappingItemWrite (box probe su : Int) (electrodes : List Char) :
    Except PyErr Write :=
  match parse_numbers electrodes (intRange 0 127) with
  | .error e => .error e
  | .ok elecs => .ok ⟨box, probe, .elecW su elecs⟩

/-- Per-probe processing of one record (innermost id resolution plus the id
loop with its validations and writes). -/
def applyProbeRecord (r : XMLRecord) (box probe : Int) (st : GeneralSettings) :
    Except PyErr GeneralSettings :=
  match r with
  | .channel _ _ channelE references gain input =>
    match parse_numbers channelE (intRange 0 63) with
    | .error e => .error e
    | .ok all_channels =>
      efoldl (fun st3 ch =>
        match channelItemWrite box probe ch references gain input with
        | .error e => .error e
        | .ok w => applyWrite st3 w) st all_channels
  | .configuration _ _ stimunitE payload =>
    match parse_numbers stimunitE (intRange 0 7) with
    | .error e => .error e
    | .ok all_waveforms =>
      efoldl (fun st3 su =>
        match configItemWrite box probe su payload with
        | .error e => .error e
        | .ok w => applyWrite st3 w) st all_waveforms
  | .mapping _ _ stimunitE electrodes =>
    match parse_numbers stimunitE (intRange 0 7) with
    | .error e => .error e
    | .ok all_mappings =>
      efoldl (fun st3 su =>
        match mappingItemWrite box probe su electrodes with
        | .error e => .error e
        | .ok w => applyWrite st3 w) st all_mappings

/-- The box / probe address expressions of a record. -/
def XMLRecord.boxE : XMLRecord → List Char
  | .channel b _ _ _ _ _ => b
  | .configuration b _ _ _ => b
  | .mapping b _ _ _ => b

def XMLRecord.probeE : XMLRecord → List Char
  | .channel _ p _ _ _ _ => p
  | .configuration _ p _ _ => p
  | .mapping _ p _ _ => p

/-- Processing of one record (`for XML_settings in XML_element` body):
resolve boxes against `connected`'s keys, then per box resolve probes
against `connected[box]`, then run the per-probe processing. -/
def applyRecord (st : GeneralSettings) (r : XMLRecord) :
    Except PyErr GeneralSettings :=
  match parse_numbers r.boxE (st.connected.map Prod.fst) with
  | .error e => .error e
  | .ok boxes =>
    efoldl (fun st1 b =>
      match connectedAt st1 b with
      | .error e => .error e
      | .ok probeList =>
        match parse_numbers r.probeE probeList with
        | .error e => .error e
        | .ok probes =>
          efoldl (fun st2 p => applyProbeRecord r b p st2) st1 probes) st boxes

/-- `overwrite_settings(data_xml, local_settings, check_topic)`
(XML_handler.py lines 134-216). -/
def overwrite_settings (data_xml : List XMLSection)
    (local_settings : GeneralSettings) (check_topic : Topic) :
    Except PyErr GeneralSettings :=
  efoldl (fun st sec => efoldl applyRecord st sec.records) local_settings
    (data_xml.filter (fun sec => (topicTags check_topic).contains sec.tag))

/-- `update_checked_settings(data, settings, check_topic)`
(XML_handler.py lines 219-227). -/
def update_checked_settings (data : List XMLSection) (settings : GeneralSettings)
    (check_topic : Topic) : Except PyErr GeneralSettings :=
  overwrite_settings data settings check_topic

/-! #### Addresses and the write-characterisation of the merge -/

inductive SlotAddr
  | chanA (channel : Int)
  | suA (stimunit : Int)
  | elecA (stimunit : Int)
  deriving DecidableEq, Repr

inductive SlotVal
  | chanV (v : ChanSettings)
  | suV (v : SUSettings)
  | elecV (v : List Int)
  deriving DecidableEq, Repr

structure Addr where
  box : Int
  probe : Int
  slot : SlotAddr
  deriving DecidableEq, Repr

def slotAddr : SlotWrite → SlotAddr
  | .chanW c _ => .chanA c
  | .suW u _ => .suA u
  | .elecW u _ => .elecA u

def slotVal : SlotWrite → SlotVal
  | .chanW _ v => .chanV v
  | .suW _ v => .suV v
  | .elecW _ v => .elecV v

def writeAddr (w : Write) : Addr := ⟨w.box, w.probe, slotAddr w.slot⟩

def writeVal (w : Write) : SlotVal := slotVal w.slot

def probeValAt (ps : ProbeSettings) : SlotAddr → Option SlotVal
  | .chanA c => (pyLookup ps.channel c).map SlotVal.chanV
  | .suA u => (pyLookup ps.stim_unit_sett u).map SlotVal.suV
  | .elecA u => (pyLookup ps.stim_unit_elec u).map SlotVal.elecV

/-- The value stored at a `(box, probe, slot)` address of the settings tree. -/
def valAt (s : GeneralSettings) (a : Addr) : Option SlotVal :=
  match pyLookup s.boxes a.box with
  | none => none
  | some bs =>
    match pyLookup bs.probes a.probe with
    | none => none
    | some ps => probeValAt ps a.slot

/-- The key structure of the settings tree: box keys with their probe keys. -/
def topo (s : GeneralSettings) : List (Int × List Int) :=
  s.boxes.map (fun bp => (bp.1, bp.2.probes.map Prod.fst))

/-- Whether `(box, probe)` is present in the tree. -/
def topoHas (s : GeneralSettings) (b p : Int) : Bool :=
  match pyLookup s.boxes b with
  | some bs => (pyLookup bs.probes p).isSome
  | none => false

theorem map_pyInsert {β γ : Type} (m : List (Int × β)) (k : Int) (v v0 : β)
    (g : Int × β → γ) (hv : pyLookup m k = some v0) (hg : g (k, v) = g (k, v0)) :
    (pyInsert k v m).map g = m.map g := by
  induction m with
  | nil => simp at hv
  | cons hd tl ih =>
    obtain ⟨k1, v1⟩ := hd
    by_cases hk : k1 = k
    · subst hk
      rw [pyLookup_cons, if_pos rfl] at hv
      obtain rfl := Option.some.inj hv
      simp [pyInsert, hg]
    · simp only [pyLookup_cons, hk, if_false] at hv
      simp [pyInsert, hk, ih hv]

theorem pyLookup_topoList (m : List (Int × BoxSettings)) (k : Int) :
    pyLookup (m.map (fun bp => (bp.1, bp.2.probes.map Prod.fst))) k
      = (pyLookup m k).map (fun b => b.probes.map Prod.fst) := by
  induction m with
  | nil => rfl
  | cons hd tl ih =>
    obtain ⟨k1, v1⟩ := hd
    by_cases hk : k1 = k <;> simp [hk, ih]

theorem pyLookup_isSome_eq_contains {β : Type} (m : List (Int × β)) (k : Int) :
    (pyLookup m k).isSome = (m.map Prod.fst).contains k := by
  induction m with
  | nil => rfl
  | cons hd tl ih =>
    obtain ⟨k1, v1⟩ := hd
    by_cases hk : k1 = k
    · subst hk; simp [List.contains_cons]
    · have hk2 : ¬(k = k1) := fun h => hk h.symm
      simp [hk, List.contains_cons, ih, hk2]

theorem topoHas_of_topo (s : GeneralSettings) (b p : Int) :
    topoHas s b p
      = (match pyLookup (topo s) b with
         | some ks => ks.contains p
         | none => false) := by
  rw [topoHas, topo, pyLookup_topoList]
  cases h : pyLookup s.boxes b
  · rfl
  · simp [pyLookup_isSome_eq_contains]

theorem topoHas_congr (s s2 : GeneralSettings) (h : topo s2 = topo s) (b p : Int) :
    topoHas s2 b p = topoHas s b p := by
  rw [topoHas_of_topo, topoHas_of_topo, h]

/-- `connected` is determined by the key structure. -/
theorem connected_eq_topo (s : GeneralSettings) :
    s.connected = (topo s).filter (fun bp => decide (bp.2 ≠ [])) := by
  rw [GeneralSettings.connected, topo]
  induction s.boxes with
  | nil => rfl
  | cons hd tl ih =>
    obtain ⟨k1, b1⟩ := hd
    rw [List.filterMap_cons, List.map_cons, List.filter_cons]
    by_cases hb : b1.probes = []
    · have h2 : (decide (((k1, b1.probes.map Prod.fst) : Int × List Int).2 ≠ []) = true) ↔ False := by
        simp [hb]
      rw [if_pos hb]
      rw [if_neg (by simp [hb])]
      exact ih
    · have h2 : (b1.probes.map Prod.fst) ≠ [] := by simpa using hb
      rw [if_neg hb]
      rw [if_pos (by simpa using hb), ih]

theorem connected_congr (s s2 : GeneralSettings) (h : topo s2 = topo s) :
    s2.connected = s.connected := by
  rw [connected_eq_topo, connected_eq_topo, h]

theorem applyWrite_topo (s : GeneralSettings) (w : Write) (t : GeneralSettings)
    (h : applyWrite s w = .ok t) : topo t = topo s := by
  rw [applyWrite] at h
  split at h
  · exact absurd h (by simp)
  · rename_i bs hbox
    split at h
    · exact absurd h (by simp)
    · rename_i ps hprobe
      obtain rfl := Except.ok.inj h
      rw [topo, topo]
      exact map_pyInsert s.boxes w.box _ bs _ hbox
        (by simp [pyInsert_keys_of_mem w.probe _ bs.probes (by rw [hprobe]; simp)])

theorem applyWrite_topoHas (s : GeneralSettings) (w : Write) (t : GeneralSettings)
    (h : applyWrite s w = .ok t) : topoHas s w.box w.probe = true := by
  rw [applyWrite] at h
  split at h
  · exact absurd h (by simp)
  · rename_i bs hbox
    split at h
    · exact absurd h (by simp)
    · rename_i ps hprobe
      rw [topoHas, hbox]
      simp [hprobe]

theorem applyWrite_total (s : GeneralSettings) (w : Write)
    (h : topoHas s w.box w.probe = true) : ∃ t, applyWrite s w = .ok t := by
  rw [topoHas] at h
  cases hbox : pyLookup s.boxes w.box with
  | none => rw [hbox] at h; simp at h
  | some bs =>
    rw [hbox] at h
    change (pyLookup bs.probes w.probe).isSome = true at h
    cases hprobe : pyLookup bs.probes w.probe with
    | none => rw [hprobe] at h; simp at h
    | some ps =>
      refine ⟨⟨pyInsert w.box ⟨pyInsert w.probe (applySlot ps w.slot) bs.probes⟩ s.boxes⟩, ?_⟩
      rw [applyWrite, hbox]
      simp [hprobe]

theorem probeValAt_applySlot (ps : ProbeSettings) (sw : SlotWrite) (sa : SlotAddr) :
    probeValAt (applySlot ps sw) sa
      = if slotAddr sw = sa then some (slotVal sw) else probeValAt ps sa := by
  cases sw <;> cases sa <;>
    simp only [applySlot, probeValAt, slotAddr, slotVal, pyLookup_pyInsert] <;>
    split_ifs <;> simp_all

theorem valAt_applyWrite (s : GeneralSettings) (w : Write) (t : GeneralSettings)
    (h : applyWrite s w = .ok t) (a : Addr) :
    valAt t a = if writeAddr w = a then some (writeVal w) else valAt s a := by
  obtain ⟨wb, wp, wsl⟩ := w
  obtain ⟨ab, ap, asl⟩ := a
  rw [applyWrite] at h
  split at h
  · exact absurd h (by simp)
  · rename_i bs hbox
    split at h
    · exact absurd h (by simp)
    · rename_i ps hprobe
      obtain rfl := Except.ok.inj h
      have hbox2 : pyLookup s.boxes wb = some bs := hbox
      have hprobe2 : pyLookup bs.probes wp = some ps := hprobe
      have hwa : writeAddr ⟨wb, wp, wsl⟩ = ⟨wb, wp, slotAddr wsl⟩ := rfl
      have hwv : writeVal ⟨wb, wp, wsl⟩ = slotVal wsl := rfl
      rw [hwa, hwv]
      show (match pyLookup (pyInsert wb ⟨pyInsert wp (applySlot ps wsl) bs.probes⟩ s.boxes) ab with
            | none => none
            | some bs2 =>
              match pyLookup bs2.probes ap with
              | none => none
              | some ps2 => probeValAt ps2 asl) = _
      rw [pyLookup_pyInsert]
      by_cases hb : wb = ab
      · subst hb
        rw [if_pos rfl]
        show (match pyLookup (pyInsert wp (applySlot ps wsl) bs.probes) ap with
              | none => none
              | some ps2 => probeValAt ps2 asl) = _
        rw [pyLookup_pyInsert]
        by_cases hp : wp = ap
        · subst hp
          rw [if_pos rfl]
          show probeValAt (applySlot ps wsl) asl = _
          rw [probeValAt_applySlot]
          by_cases hs : slotAddr wsl = asl
          · rw [if_pos hs, if_pos (by rw [hs])]
          · rw [if_neg hs, if_neg (fun hc => hs (congrArg Addr.slot hc))]
            show probeValAt ps asl
                = (match pyLookup s.boxes wb with
                   | none => none
                   | some bs2 =>
                     match pyLookup bs2.probes wp with
                     | none => none
                     | some ps2 => probeValAt ps2 asl)
            rw [hbox2]
            show probeValAt ps asl
                = (match pyLookup bs.probes wp with
                   | none => none
                   | some ps2 => probeValAt ps2 asl)
            rw [hprobe2]
        · rw [if_neg hp, if_neg (fun hc => hp (congrArg Addr.probe hc))]
          show (match pyLookup bs.probes ap with
                | none => none
                | some ps2 => probeValAt ps2 asl)
              = (match pyLookup s.boxes wb with
                 | none => none
                 | some bs2 =>
                   match pyLookup bs2.probes ap with
                   | none => none
                   | some ps2 => probeValAt ps2 asl)
          rw [hbox2]
      · rw [if_neg hb, if_neg (fun hc => hb (congrArg Addr.box hc))]
        rfl

theorem efoldl_append {σ α : Type} (f : σ → α → Except PyErr σ) (st : σ)
    (l1 l2 : List α) :
    efoldl f st (l1 ++ l2)
      = (match efoldl f st l1 with
         | .error e => .error e
         | .ok s2 => efoldl f s2 l2) := by
  induction l1 generalizing st with
  | nil => rfl
  | cons a as ih =>
    rw [List.cons_append, efoldl, efoldl]
    cases f st a
    · rfl
    · rename_i s2
      exact ih s2

/-- Value written last at an address by a sequence of writes (later writes
win). -/
def lastVal : List Write → Addr → Option SlotVal
  | [], _ => none
  | w :: rest, a =>
    match lastVal rest a with
    | some v => some v
    | none => if writeAddr w = a then some (writeVal w) else none

theorem lastVal_eq_none (ws : List Write) (a : Addr)
    (h : ∀ w ∈ ws, writeAddr w ≠ a) : lastVal ws a = none := by
  induction ws with
  | nil => rfl
  | cons w rest ih =>
    rw [lastVal, ih (fun w2 hw2 => h w2 (List.mem_cons_of_mem w hw2))]
    rw [if_neg (h w (List.mem_cons_self w rest))]

/-- Characterisation of a successful sequence of writes: the key structure
is unchanged, every write hit an existing `(box, probe)`, and each address
holds the last value written there (or its old value). -/
theorem applyWrites_char (ws : List Write) : ∀ (s t : GeneralSettings),
    applyWrites s ws = .ok t →
    topo t = topo s ∧ (∀ w ∈ ws, topoHas s w.box w.probe = true)
      ∧ ∀ a, valAt t a
          = (match lastVal ws a with
             | some v => some v
             | none => valAt s a) := by
  induction ws with
  | nil =>
    intro s t h
    obtain rfl := Except.ok.inj h
    exact ⟨rfl, by simp, fun a => by rw [lastVal]⟩
  | cons w rest ih =>
    intro s t h
    rw [applyWrites, efoldl] at h
    cases hw : applyWrite s w with
    | error e => rw [hw] at h; exact absurd h (by simp)
    | ok s2 =>
      rw [hw] at h
      obtain ⟨htopo2, hhas2, hval2⟩ := ih s2 t h
      have htopo1 : topo s2 = topo s := applyWrite_topo s w s2 hw
      refine ⟨htopo2.trans htopo1, ?_, ?_⟩
      · intro w2 hw2
        rcases List.mem_cons.mp hw2 with rfl | hw3
        · exact applyWrite_topoHas s w2 s2 hw
        · rw [← topoHas_congr s s2 htopo1]
          exact hhas2 w2 hw3
      · intro a
        rw [hval2 a, valAt_applyWrite s w s2 hw a, lastVal]
        cases lastVal rest a
        · by_cases hco : writeAddr w = a <;> simp [hco]
        · rfl

theorem applyWrites_total (ws : List Write) : ∀ (s : GeneralSettings),
    (∀ w ∈ ws, topoHas s w.box w.probe = true) →
    ∃ t, applyWrites s ws = .ok t := by
  induction ws with
  | nil => intro s _; exact ⟨s, rfl⟩
  | cons w rest ih =>
    intro s h
    obtain ⟨s2, hs2⟩ := applyWrite_total s w (h w (List.mem_cons_self w rest))
    have htopo : topo s2 = topo s := applyWrite_topo s w s2 hs2
    obtain ⟨t, ht⟩ := ih s2 (fun w2 hw2 => by
      rw [topoHas_congr s s2 htopo]
      exact h w2 (List.mem_cons_of_mem w hw2))
    refine ⟨t, ?_⟩
    rw [applyWrites, efoldl, hs2]
    exact ht

/-- The writes of a list of sub-steps, concatenated. -/
def eflatMapWrites {α : Type} (f : α → Except PyErr (List Write)) (l : List α) :
    Except PyErr (List Write) :=
  match emapM f l with
  | .error e => .error e
  | .ok wss => .ok wss.flatten

/-- Generic level lemma: a state-threading loop whose body is equivalent to
"collect writes from the current `connected` view, then apply them" is, as a
whole, equivalent to collecting all writes against the initial `connected`
view and applying them — because applying writes never changes the
`connected` view. -/
theorem efoldl_level {α : Type}
    (bodyApply : GeneralSettings → α → Except PyErr GeneralSettings)
    (bodyWrites : α → List (Int × List Int) → Except PyErr (List Write))
    (hbody : ∀ st a t, bodyApply st a = .ok t ↔
        ∃ ws, bodyWrites a st.connected = .ok ws ∧ applyWrites st ws = .ok t)
    (l : List α) : ∀ (st t : GeneralSettings),
    efoldl bodyApply st l = .ok t ↔
      ∃ ws, eflatMapWrites (fun a => bodyWrites a st.connected) l = .ok ws
        ∧ applyWrites st ws = .ok t := by
  induction l with
  | nil =>
    intro st t
    constructor
    · intro h
      obtain rfl := Except.ok.inj h
      exact ⟨[], rfl, rfl⟩
    · rintro ⟨ws, hws, hap⟩
      obtain rfl : ([] : List Write) = ws := Except.ok.inj hws
      exact hap
  | cons a as ih =>
    intro st t
    constructor
    · intro h
      rw [efoldl] at h
      cases hba : bodyApply st a with
      | error e => rw [hba] at h; exact absurd h (by simp)
      | ok st2 =>
        rw [hba] at h
        obtain ⟨ws1, hws1, hap1⟩ := (hbody st a st2).mp hba
        have hconn : st2.connected = st.connected :=
          connected_congr st st2 (applyWrites_char ws1 st st2 hap1).1
        obtain ⟨ws2, hws2, hap2⟩ := (ih st2 t).mp h
        rw [hconn] at hws2
        rw [eflatMapWrites] at hws2
        refine ⟨ws1 ++ ws2, ?_, ?_⟩
        · rw [eflatMapWrites, emapM, hws1]
          cases hrest : emapM (fun a2 => bodyWrites a2 st.connected) as with
          | error e => rw [hrest] at hws2; exact absurd hws2 (by simp)
          | ok wss2 =>
            rw [hrest] at hws2
            obtain rfl := Except.ok.inj hws2
            rfl
        · rw [applyWrites, efoldl_append]
          rw [applyWrites] at hap1
          rw [hap1]
          exact hap2
    · rintro ⟨ws, hws, hap⟩
      rw [eflatMapWrites, emapM] at hws
      cases hfa : bodyWrites a st.connected with
      | error e => rw [hfa] at hws; exact absurd hws (by simp)
      | ok ws1 =>
        rw [hfa] at hws
        cases hrest : emapM (fun a2 => bodyWrites a2 st.connected) as with
        | error e => rw [hrest] at hws; exact absurd hws (by simp)
        | ok wss2 =>
          rw [hrest] at hws
          obtain rfl := Except.ok.inj hws
          rw [List.flatten_cons] at hap
          rw [applyWrites, efoldl_append] at hap
          cases hap1 : efoldl applyWrite st ws1 with
          | error e => rw [hap1] at hap; exact absurd hap (by simp)
          | ok st2 =>
            rw [hap1] at hap
            have hba : bodyApply st a = .ok st2 :=
              (hbody st a st2).mpr ⟨ws1, hfa, hap1⟩
            rw [efoldl, hba]
            apply (ih st2 t).mpr
            have hconn : st2.connected = st.connected :=
              connected_congr st st2 (applyWrites_char ws1 st st2 hap1).1
            refine ⟨wss2.flatten, ?_, hap⟩
            rw [hconn, eflatMapWrites, hrest]

/-- A single validated item write, as a one-element write list. -/
theorem item_level (gen : Except PyErr Write) (st t : GeneralSettings) :
    (match gen with
     | .error e => (.error e : Except PyErr GeneralSettings)
     | .ok w => applyWrite st w) = .ok t ↔
      ∃ ws, (match gen with
             | .error e => (.error e : Except PyErr (List Write))
             | .ok w => .ok [w]) = .ok ws
        ∧ applyWrites st ws = .ok t := by
  cases gen with
  | error e => simp
  | ok w =>
    constructor
    · intro h
      change applyWrite st w = Except.ok t at h
      refine ⟨[w], rfl, ?_⟩
      simp only [applyWrites, efoldl, h]
    · rintro ⟨ws, hws, hap⟩
      obtain rfl := Except.ok.inj hws
      change applyWrite st w = Except.ok t
      cases haw : applyWrite st w with
      | error e =>
        simp only [applyWrites, efoldl, haw] at hap
        exact absurd hap (by simp)
      | ok st2 =>
        simp only [applyWrites, efoldl, haw] at hap
        obtain rfl := Except.ok.inj hap
        rfl

/-- The writes produced by one record at one `(box, probe)` pair. -/
def probeRecordWrites (r : XMLRecord) (box probe : Int) :
    Except PyErr (List Write) :=
  match r with
  | .channel _ _ channelE references gain input =>
    match parse_numbers channelE (intRange 0 63) with
    | .error e => .error e
    | .ok all_channels =>
      eflatMapWrites (fun ch =>
        match channelItemWrite box probe ch references gain input with
        | .error e => .error e
        | .ok w => .ok [w]) all_channels
  | .configuration _ _ stimunitE payload =>
    match parse_numbers stimunitE (intRange 0 7) with
    | .error e => .error e
    | .ok all_waveforms =>
      eflatMapWrites (fun su =>
        match configItemWrite box probe su payload with
        | .error e => .error e
        | .ok w => .ok [w]) all_waveforms
  | .mapping _ _ stimunitE electrodes =>
    match parse_numbers stimunitE (intRange 0 7) with
    | .error e => .error e
    | .ok all_mappings =>
      eflatMapWrites (fun su =>
        match mappingItemWrite box probe su electrodes with
        | .error e => .error e
        | .ok w => .ok [w]) all_mappings

theorem applyProbeRecord_iff (r : XMLRecord) (b p : Int)
    (st t : GeneralSettings) :
    applyProbeRecord r b p st = .ok t ↔
      ∃ ws, probeRecordWrites r b p = .ok ws ∧ applyWrites st ws = .ok t := by
  cases r with
  | channel boxE probeE channelE references gain input =>
    rw [applyProbeRecord, probeRecordWrites]
    cases hpn : parse_numbers channelE (intRange 0 63) with
    | error e => simp
    | ok chans =>
      exact efoldl_level
        (fun st3 ch =>
          match channelItemWrite b p ch references gain input with
          | .error e => .error e
          | .ok w => applyWrite st3 w)
        (fun ch _ =>
          match channelItemWrite b p ch references gain input with
          | .error e => .error e
          | .ok w => .ok [w])
        (fun st3 ch t3 => item_level (channelItemWrite b p ch references gain input) st3 t3)
        chans st t
  | configuration boxE probeE stimunitE payload =>
    rw [applyProbeRecord, probeRecordWrites]
    cases hpn : parse_numbers stimunitE (intRange 0 7) with
    | error e => simp
    | ok sus =>
      exact efoldl_level
        (fun st3 su =>
          match configItemWrite b p su payload with
          | .error e => .error e
          | .ok w => applyWrite st3 w)
        (fun su _ =>
          match configItemWrite b p su payload with
          | .error e => .error e
          | .ok w => .ok [w])
        (fun st3 su t3 => item_level (configItemWrite b p su payload) st3 t3)
        sus st t
  | mapping boxE probeE stimunitE electrodes =>
    rw [applyProbeRecord, probeRecordWrites]
    cases hpn : parse_numbers stimunitE (intRange 0 7) with
    | error e => simp
    | ok sus =>
      exact efoldl_level
        (fun st3 su =>
          match mappingItemWrite b p su electrodes with
          | .error e => .error e
          | .ok w => applyWrite st3 w)
        (fun su _ =>
          match mappingItemWrite b p su electrodes with
          | .error e => .error e
          | .ok w => .ok [w])
        (fun st3 su t3 => item_level (mappingItemWrite b p su electrodes) st3 t3)
        sus st t

/-- The writes produced by one record at one resolved box. -/
def boxRecordWrites (r : XMLRecord) (b : Int)
    (conn : List (Int × List Int)) : Except PyErr (List Write) :=
  match pyLookup conn b with
  | none => .error (.keyError "box")
  | some probeList =>
    match parse_numbers r.probeE probeList with
    | .error e => .error e
    | .ok probes => eflatMapWrites (fun p => probeRecordWrites r b p) probes

theorem boxRecord_iff (r : XMLRecord) (st : GeneralSettings) (b : Int)
    (t : GeneralSettings) :
    (match connectedAt st b with
     | .error e => (.error e : Except PyErr GeneralSettings)
     | .ok probeList =>
       match parse_numbers r.probeE probeList with
       | .error e => (.error e : Except PyErr GeneralSettings)
       | .ok probes =>
         efoldl (fun st2 p => applyProbeRecord r b p st2) st probes) = .ok t
    ↔ ∃ ws, boxRecordWrites r b st.connected = .ok ws
        ∧ applyWrites st ws = .ok t := by
  rw [connectedAt, boxRecordWrites]
  cases hc : pyLookup st.connected b with
  | none => simp
  | some probeList =>
    show (match parse_numbers r.probeE probeList with
          | .error e => (.error e : Except PyErr GeneralSettings)
          | .ok probes =>
            efoldl (fun st2 p => applyProbeRecord r b p st2) st probes) = .ok t
        ↔ ∃ ws, (match parse_numbers r.probeE probeList with
                 | .error e => (.error e : Except PyErr (List Write))
                 | .ok probes =>
                   eflatMapWrites (fun p => probeRecordWrites r b p) probes) = .ok ws
            ∧ applyWrites st ws = .ok t
    cases hpn : parse_numbers r.probeE probeList with
    | error e => simp
    | ok probes =>
      exact efoldl_level
        (fun st2 p => applyProbeRecord r b p st2)
        (fun p _ => probeRecordWrites r b p)
        (fun st2 p t2 => applyProbeRecord_iff r b p st2 t2)
        probes st t

/-- The writes produced by one record against a `connected` view. -/
def recordWrites (r : XMLRecord) (conn : List (Int × List Int)) :
    Except PyErr (List Write) :=
  match parse_numbers r.boxE (conn.map Prod.fst) with
  | .error e => .error e
  | .ok boxes => eflatMapWrites (fun b => boxRecordWrites r b conn) boxes

theorem applyRecord_iff (st : GeneralSettings) (r : XMLRecord)
    (t : GeneralSettings) :
    applyRecord st r = .ok t ↔
      ∃ ws, recordWrites r st.connected = .ok ws ∧ applyWrites st ws = .ok t := by
  rw [applyRecord, recordWrites]
  cases hbn : parse_numbers r.boxE (st.connected.map Prod.fst) with
  | error e => simp
  | ok boxes =>
    exact efoldl_level
      (fun st1 b =>
        match connectedAt st1 b with
        | .error e => (.error e : Except PyErr GeneralSettings)
        | .ok probeList =>
          match parse_numbers r.probeE probeList with
          | .error e => (.error e : Except PyErr GeneralSettings)
          | .ok probes =>
            efoldl (fun st2 p => applyProbeRecord r b p st2) st1 probes)
      (fun b conn => boxRecordWrites r b conn)
      (fun st1 b t1 => boxRecord_iff r st1 b t1)
      boxes st t

theorem applyRecords_iff (records : List XMLRecord) (st t : GeneralSettings) :
    efoldl applyRecord st records = .ok t ↔
      ∃ ws, eflatMapWrites (fun r => recordWrites r st.connected) records = .ok ws
        ∧ applyWrites st ws = .ok t :=
  efoldl_level applyRecord (fun r conn => recordWrites r conn)
    (fun st2 r t2 => applyRecord_iff st2 r t2) records st t

/-- All the writes of a batch, resolved against a `connected` view. -/
def batchWrites (data_xml : List XMLSection) (conn : List (Int × List Int))
    (check_topic : Topic) : Except PyErr (List Write) :=
  eflatMapWrites
    (fun sec => eflatMapWrites (fun r => recordWrites r conn) sec.records)
    (data_xml.filter (fun sec => (topicTags check_topic).contains sec.tag))

/-- `overwrite_settings` is exactly: resolve and validate all writes against
the working copy's `connected` view, then apply them in order. -/
theorem overwrite_ok_iff (data_xml : List XMLSection) (s : GeneralSettings)
    (topic : Topic) (t : GeneralSettings) :
    overwrite_settings data_xml s topic = .ok t ↔
      ∃ ws, batchWrites data_xml s.connected topic = .ok ws
        ∧ applyWrites s ws = .ok t := by
  rw [overwrite_settings, batchWrites]
  exact efoldl_level (fun st (sec : XMLSection) => efoldl applyRecord st sec.records)
    (fun (sec : XMLSection) conn => eflatMapWrites (fun r => recordWrites r conn) sec.records)
    (fun st (sec : XMLSection) t2 => applyRecords_iff sec.records st t2)
    _ s t

/-! ### Claim theorems: merge idempotence (C9) and frame effect (C10) -/

/-- C9: `overwrite_settings` is idempotent — applying the same valid batch a
second time to the result succeeds and yields the same key structure and the
same channel / stim-unit / electrode-mapping map contents at every address. -/
theorem overwrite_settings_idempotent (data_xml : List XMLSection)
    (s : GeneralSettings) (topic : Topic) (t : GeneralSettings)
    (h : overwrite_settings data_xml s topic = .ok t) :
    ∃ u, overwrite_settings data_xml t topic = .ok u
      ∧ topo u = topo t ∧ ∀ a, valAt u a = valAt t a := by
  obtain ⟨ws, hws, hap⟩ := (overwrite_ok_iff data_xml s topic t).mp h
  obtain ⟨htopo, hhas, hval⟩ := applyWrites_char ws s t hap
  have hconn : t.connected = s.connected := connected_congr s t htopo
  obtain ⟨u, hu⟩ := applyWrites_total ws t (fun w hw => by
    rw [topoHas_congr s t htopo]
    exact hhas w hw)
  obtain ⟨htopo2, _, hval2⟩ := applyWrites_char ws t u hu
  refine ⟨u, ?_, htopo2, ?_⟩
  · apply (overwrite_ok_iff data_xml t topic u).mpr
    refine ⟨ws, ?_, hu⟩
    rw [hconn]
    exact hws
  · intro a
    rw [hval2 a]
    cases hl : lastVal ws a
    · rfl
    · rw [hval a, hl]

/-- C10: frame effect of the merge — a successful `overwrite_settings` only
writes at the addresses its records resolve to: every
`(box, probe, channel | stim-unit | mapping)` address not written by the
batch keeps its previous value, and no box or probe entry is created or
deleted. -/
theorem overwrite_settings_frame (data_xml : List XMLSection)
    (s : GeneralSettings) (topic : Topic) (t : GeneralSettings)
    (ws : List Write)
    (h : overwrite_settings data_xml s topic = .ok t)
    (hws : batchWrites data_xml s.connected topic = .ok ws)
    (a : Addr) (ha : ∀ w ∈ ws, writeAddr w ≠ a) :
    valAt t a = valAt s a ∧ topo t = topo s := by
  obtain ⟨ws2, hws2, hap⟩ := (overwrite_ok_iff data_xml s topic t).mp h
  obtain rfl : ws = ws2 := by
    rw [hws] at hws2
    exact Except.ok.inj hws2
  obtain ⟨htopo, _, hval⟩ := applyWrites_char ws s t hap
  refine ⟨?_, htopo⟩
  rw [hval a, lastVal_eq_none ws a ha]

/-! Concrete batch for the C9/C10 witnesses: one box with one probe, one
`Channel` record addressing box 1, probe 1, channels 1-3 (1-indexed). -/

def s0ex : GeneralSettings := ⟨[(0, ⟨[(0, {})]⟩)]⟩

def chanRecEx : XMLRecord :=
  .channel ['1'] ['1'] ['1', '-', '3'] ['b'] ['1'] ['0']

def batchEx : List XMLSection := [⟨.recordingSettings, [chanRecEx]⟩]

def csEx : ChanSettings :=
  ⟨['1', '0', '0', '0', '0', '0', '0', '0', '0'], 1, 0⟩

def tEx : GeneralSettings :=
  ⟨[(0, ⟨[(0, ⟨[(0, csEx), (1, csEx), (2, csEx)], [], []⟩)]⟩)]⟩

def wsEx : List Write :=
  [⟨0, 0, .chanW 0 csEx⟩, ⟨0, 0, .chanW 1 csEx⟩, ⟨0, 0, .chanW 2 csEx⟩]

/-- Witness for `overwrite_settings_idempotent`. -/
theorem overwrite_settings_idempotent_witness :
    ∃ u, overwrite_settings batchEx tEx .recording = .ok u
      ∧ topo u = topo tEx ∧ ∀ a, valAt u a = valAt tEx a :=
  overwrite_settings_idempotent batchEx s0ex .recording tEx (by decide)

/-- Witness for `overwrite_settings_frame`: the stim-unit slot of the probe
is untouched by the channel batch. -/
theorem overwrite_settings_frame_witness :
    valAt tEx ⟨0, 0, .suA 0⟩ = valAt s0ex ⟨0, 0, .suA 0⟩ ∧ topo tEx = topo s0ex :=
  overwrite_settings_frame batchEx s0ex .recording tEx wsEx (by decide)
    (by decide) ⟨0, 0, .suA 0⟩ (by decide)

end ViperBox
